import Mathlib

/-!
Verification development for the annulus module of the eddy package
(file eddy/annulus.py, class ensemble).

The Python code is shallowly embedded over the rationals.  Machine floats
carry no special values in the fragments verified here except where the
code inspects them (np.isnan / np.isfinite); those checks are modelled by
the small inductive type Flt below.  NumPy arrays become lists, boolean
masks become lists of Bool, fancy indexing becomes a map over an index
list, and a raised ValueError becomes an Except.error value.  External
collaborators (scipy minimizers, curve_fit, the celerite GP, np.cos,
np.random) are modelled as explicit oracle arguments: every theorem
quantifies over the oracle, so it holds for every behaviour the external
code can exhibit.
-/

set_option maxHeartbeats 1000000

namespace eddy

/-! ## Model of float status flags

Flt models exactly the distinctions the code makes with np.isnan and
np.isfinite: a value is NaN, plus infinity, minus infinity, or a finite
number (a rational in this embedding). -/

inductive Flt where
  | nan : Flt
  | inf : Flt
  | ninf : Flt
  | fin : ℚ → Flt
deriving DecidableEq

/-- Model of np.isnan on a scalar. -/
def Flt.isnan : Flt → Bool
  | .nan => true
  | _ => false

/-- Model of np.isfinite on a scalar: false on NaN and on both infinities. -/
def Flt.isfinite : Flt → Bool
  | .fin _ => true
  | _ => false

/-! ## The parameter vector theta

Embeds the 4-vector (vrot, noise, lnsigma, lnrho) that _lnprior,
_lnprobability and _optimize_p0 operate on. -/

structure Theta4 where
  vrot : ℚ
  noise : ℚ
  lnsigma : ℚ
  lnrho : ℚ
deriving DecidableEq

/-! ## The ensemble store (ensemble.__init__, lines 13-51)

The constructor input: spectra (2-D array, one row per angle), theta
(angles in radians) and velax (the shared velocity axis).  Options are
fixed at their defaults: sort_spectra=True, remove_empty=True. -/

structure Ens where
  thetaIn : List ℚ
  spectraIn : List (List ℚ)
  velax : List ℚ
deriving DecidableEq

/-- Embedding of np.argsort at line 28.  NumPy uses its default quicksort,
whose order on EQUAL keys is implementation defined (the source does not
contain the sort); this embedding uses a stable insertion sort on the
index list, which agrees with np.argsort whenever the keys are distinct.
All theorems below that touch ties are stated only for behaviour that is
independent of the tie order; see the discussion of claim C4. -/
def argsortIdx (l : List ℚ) : List ℕ :=
  List.insertionSort (fun i j => l.getD i 0 ≤ l.getD j 0) (List.range l.length)

/-- NumPy fancy indexing arr[idxs] for an integer index array. -/
def applyIdx (idxs : List ℕ) (l : List α) (d : α) : List α :=
  idxs.map (fun i => l.getD i d)

/-- NumPy boolean-mask indexing arr[mask]. -/
def applyMask (mask : List Bool) (l : List α) : List α :=
  (mask.zip l).filterMap (fun p => if p.1 then some p.2 else none)

/-- Line 34: idxs = np.sum(spectra, axis=-1) > 0.0.  Note that the Python
code computes this mask from the local variable spectra, i.e. from the
ORIGINAL, UNSORTED constructor input, not from the already sorted
self.spectra. -/
def keepMask (E : Ens) : List Bool :=
  E.spectraIn.map (fun row => decide (0 < row.sum))

/-- Lines 27-30: the angles after the argsort step. -/
def sortedTheta (E : Ens) : List ℚ :=
  applyIdx (argsortIdx E.thetaIn) E.thetaIn 0

/-- Lines 27-30: the spectra after the argsort step (rows permuted by the
same index array as the angles). -/
def sortedSpectra (E : Ens) : List (List ℚ) :=
  applyIdx (argsortIdx E.thetaIn) E.spectraIn []

/-- Lines 33-36: self.theta after the remove_empty step.  The mask is the
one computed from the original row order (line 34) applied to the sorted
array. -/
def storedTheta (E : Ens) : List ℚ :=
  applyMask (keepMask E) (sortedTheta E)

/-- Lines 33-36: self.spectra after the remove_empty step. -/
def storedSpectra (E : Ens) : List (List ℚ) :=
  applyMask (keepMask E) (sortedSpectra E)

/-- Line 40: self.spectra_flat = spectra.flatten().  The Python statement
flattens the local variable spectra, i.e. the ORIGINAL constructor input,
before sorting and before the removal of empty rows. -/
def spectra_flat (E : Ens) : List ℚ :=
  E.spectraIn.flatten

/-- Line 48: self.channel = np.diff(velax)[0]. -/
def channel (E : Ens) : ℚ :=
  E.velax.getD 1 0 - E.velax.getD 0 0

/-- Line 49: lower end of self.velax_range, velax[0] - channel / 2. -/
def velaxLo (E : Ens) : ℚ :=
  E.velax.getD 0 0 - channel E / 2

/-- Line 50: upper end of self.velax_range, velax[-1] + channel / 2. -/
def velaxHi (E : Ens) : ℚ :=
  E.velax.getD (E.velax.length - 1) 0 + channel E / 2

/-! ## Deprojection (lines 404-472) -/

/-- Line 415: vpnts = velax[None, :] - vrot * np.cos(theta)[:, None],
flattened in row-major order.  The function cosf abstracts np.cos, which
is external transcendental code; every theorem below quantifies over it. -/
def deproj_vpnts (E : Ens) (cosf : ℚ → ℚ) (vrot : ℚ) : List ℚ :=
  ((storedTheta E).map (fun t => E.velax.map (fun v => v - vrot * cosf t))).flatten

/-- Message of the ValueError raised at line 461 (quotes dropped). -/
def sizeErrMsg : String := "Wrong size in vpnts and spnts."

/-- Lines 457-463: _order_spectra with its default spnts=None, so that
spnts is self.spectra_flat.  Raises the size-mismatch ValueError when the
two arrays differ in length, otherwise applies np.argsort of the
coordinates to both arrays. -/
def order_spectra (E : Ens) (vpnts : List ℚ) : Except String (List ℚ × List ℚ) :=
  if (spectra_flat E).length ≠ vpnts.length then Except.error sizeErrMsg
  else Except.ok (applyIdx (argsortIdx vpnts) vpnts 0,
                  applyIdx (argsortIdx vpnts) (spectra_flat E) 0)

/-- Result of _resample_spectra: either the raw sorted cloud (falsy
resample) or the binned axis with per-bin mean intensities, where an empty
bin yields NaN, modelled as none. -/
inductive RSOut where
  | raw : List ℚ → List ℚ → RSOut
  | binned : List ℚ → List (Option ℚ) → RSOut
deriving DecidableEq

/-- Mean of a list of values; none models the NaN that scipy returns for
an empty bin. -/
def meanQ (l : List ℚ) : Option ℚ :=
  if l = [] then none else some (l.sum / l.length)

/-- Python int() applied to a rational: truncation toward zero.  For a
rational in lowest terms this is num / den with T-division. -/
def ratTrunc (q : ℚ) : ℤ :=
  q.num / (q.den : ℤ)

/-- Line 469: bins = int((self.velax.size - 1) * resample). -/
def nbins (E : Ens) (r : ℚ) : ℕ :=
  (ratTrunc (((E.velax.length : ℚ) - 1) * r)).toNat

/-- Edge i of n equal-width bins spanning [lo, hi] (np.linspace, which is
what scipy.stats.binned_statistic builds for an integer bins argument with
an explicit range). -/
def binEdge (lo hi : ℚ) (n i : ℕ) : ℚ :=
  lo + (hi - lo) * i / n

/-- Membership of coordinate p in bin i out of n, per the documented
scipy.stats.binned_statistic semantics: every bin is half-open except the
last, which also contains its right edge; values outside [lo, hi] fall in
no bin. -/
def binMem (lo hi : ℚ) (n i : ℕ) (p : ℚ) : Bool :=
  decide (binEdge lo hi n i ≤ p) &&
    (if i + 1 = n then decide (p ≤ binEdge lo hi n n)
     else decide (p < binEdge lo hi n (i + 1)))

/-- Modelled semantics of scipy.stats.binned_statistic(vpnts, spnts,
statistic=mean, bins=n, range=(lo, hi)) restricted to its first return
value: the per-bin mean, NaN (none) on empty bins. -/
def binned_statistic_mean (vpnts spnts : List ℚ) (n : ℕ) (lo hi : ℚ) : List (Option ℚ) :=
  (List.range n).map (fun i =>
    meanQ (((vpnts.zip spnts).filter (fun q => binMem lo hi n i q.1)).map Prod.snd))

/-- Lines 465-472: _resample_spectra.  A falsy resample (0, modelling
False) returns the incoming cloud unchanged; otherwise the cloud is binned
with binned_statistic over the half-channel padded range and the new axis
is np.average of the two edge arrays, i.e. the bin midpoints. -/
def resample_spectra (E : Ens) (vpnts spnts : List ℚ) (r : ℚ) : RSOut :=
  if r = 0 then RSOut.raw vpnts spnts
  else
    RSOut.binned
      ((List.range (nbins E r)).map (fun i =>
        (binEdge (velaxLo E) (velaxHi E) (nbins E r) i +
         binEdge (velaxLo E) (velaxHi E) (nbins E r) (i + 1)) / 2))
      (binned_statistic_mean vpnts spnts (nbins E r) (velaxLo E) (velaxHi E))

/-- Lines 413-417: deprojected_spectrum(vrot, resample).  The ValueError
of _order_spectra propagates; otherwise the ordered cloud is resampled. -/
def deprojected_spectrum (E : Ens) (cosf : ℚ → ℚ) (vrot r : ℚ) : Except String RSOut :=
  (order_spectra E (deproj_vpnts E cosf vrot)).map
    (fun vs => resample_spectra E vs.1 vs.2 r)

/-- Model of np.median: middle element of the sorted list, or the average
of the two middle elements for even length.  (The empty-list NaN case is
irrelevant to the theorems below, which only use lengths.) -/
def npMedian (l : List ℚ) : ℚ :=
  if l.length % 2 = 1 then (List.insertionSort (· ≤ ·) l).getD (l.length / 2) 0
  else ((List.insertionSort (· ≤ ·) l).getD (l.length / 2 - 1) 0 +
        (List.insertionSort (· ≤ ·) l).getD (l.length / 2) 0) / 2

/-- Lines 419-424: deprojected_spectrum_maximum.  The per-spectrum peak
velocities vmax come from peak_velocities, which delegates to external
fitters (bettermoments or curve_fit); they are therefore passed in as an
oracle list. -/
def deprojected_spectrum_maximum (E : Ens) (vmax : List ℚ) (r : ℚ) : Except String RSOut :=
  (order_spectra E
      (((vmax.map (fun m => m - npMedian vmax)).map
        (fun dv => E.velax.map (fun v => v - dv))).flatten)).map
    (fun vs => resample_spectra E vs.1 vs.2 r)

/-! ## Gaussian centroid (lines 364-370 and 449-452) -/

/-- Model of np.argmax: index of the first occurrence of the maximum. -/
def argmaxIdx (l : List ℚ) : ℕ :=
  l.findIdx (fun a => a = l.foldl max (l.headD 0))

/-- Lines 364-370: _get_gaussian_center.  The first fitted parameter of
_fit_gaussian (the Gaussian center; NaN when curve_fit failed) is an
oracle of type Flt because curve_fit is external.  When the fitted center
is finite the code returns abs(x0); otherwise it falls back to the
velocity of the maximum sample. -/
def get_gaussian_center (x y : List ℚ) (fitx0 : Flt) : ℚ :=
  match fitx0 with
  | .fin q => |q|
  | _ => x.getD (argmaxIdx y) 0

/-- Lines 449-452: the method=gaussian branch of peak_velocities, one
fitted center oracle per stored spectrum. -/
def peak_velocities_gaussian (E : Ens) (fits : List Flt) : List ℚ :=
  List.zipWith (fun s f => get_gaussian_center E.velax s f) (storedSpectra E) fits

/-! ## Prior and probability (lines 271-304)

Log-space values are modelled as Option: none is minus infinity (and
absorbs the NaN and plus-infinity log-likelihoods, which line 298 also
maps to minus infinity), some q is the finite value q. -/

/-- Lines 271-285: _lnprior. -/
def lnprior (t : Theta4) (vref : ℚ) : Option ℚ :=
  if |t.vrot - vref| / vref > 1/5 then none
  else if t.vrot ≤ 0 then none
  else if t.noise ≤ 0 then none
  else if ¬(-15 < t.lnsigma ∧ t.lnsigma < 10) then none
  else if ¬(0 ≤ t.lnrho ∧ t.lnrho ≤ 10) then none
  else some 0

/-- Addition of two log-space values with minus infinity absorbing. -/
def optAdd : Option ℚ → Option ℚ → Option ℚ
  | some a, some b => some (a + b)
  | _, _ => none

/-- Lines 300-304: _lnprobability.  The log-likelihood is an oracle
because it evaluates the external celerite GP; lnlike takes theta and the
resample flag exactly as _lnlikelihood does.  When the prior is not finite
the code returns minus infinity without calling the likelihood. -/
def lnprobability (lnlike : Theta4 → ℚ → Option ℚ) (t : Theta4) (vref r : ℚ) : Option ℚ :=
  if lnprior t vref = none then none else lnlike t r

/-! ## The staged optimizer _optimize_p0 (lines 144-216)

scipy.optimize.minimize is external; each of the three block calls is an
oracle mapping the current parameter vector (which determines x0 and the
bounds) to a reported result: a success flag and a solution vector.  The
embedding reproduces the Python aliasing exactly: p0_temp = p0 binds a
second name to the SAME array, so the slice assignments p0_temp[1:] and
p0_temp[0] mutate p0 itself even when the candidate is later rejected;
only the third block builds a fresh vector from res.x. -/

structure MinRes (X : Type) where
  success : Bool
  x : X

/-- Lines 182-191: minimize the hyperparameters holding vrot fixed.  On
success the slice assignment p0_temp[1:] = res.x overwrites the
hyperparameters of p0 itself; the stored best nlnL is updated only on
strict improvement. -/
def optBlockHyper (nll : Theta4 → ℚ) (res : MinRes (ℚ × ℚ × ℚ)) (st : Theta4 × ℚ) :
    Theta4 × ℚ :=
  if res.success then
    let p : Theta4 := { vrot := st.1.vrot, noise := res.x.1,
                        lnsigma := res.x.2.1, lnrho := res.x.2.2 }
    if nll p < st.2 then (p, nll p) else (p, st.2)
  else st

/-- Lines 194-203: minimize vrot holding the hyperparameters fixed.  On
success the assignment p0_temp[0] = res.x overwrites the vrot entry of p0
itself. -/
def optBlockVrot (nll : Theta4 → ℚ) (res : MinRes ℚ) (st : Theta4 × ℚ) :
    Theta4 × ℚ :=
  if res.success then
    let p : Theta4 := { st.1 with vrot := res.x }
    if nll p < st.2 then (p, nll p) else (p, st.2)
  else st

/-- Lines 206-214: the joint minimization.  Here p0_temp = res.x is a
fresh array, so a rejected candidate really does leave p0 unchanged. -/
def optBlockJoint (nll : Theta4 → ℚ) (res : MinRes Theta4) (st : Theta4 × ℚ) :
    Theta4 × ℚ :=
  if res.success then
    if nll res.x < st.2 then (res.x, nll res.x) else st
  else st

/-- One iteration of the loop body, lines 175-214. -/
def optIter (nll : Theta4 → ℚ) (minH : Theta4 → MinRes (ℚ × ℚ × ℚ))
    (minV : Theta4 → MinRes ℚ) (minJ : Theta4 → MinRes Theta4)
    (st : Theta4 × ℚ) : Theta4 × ℚ :=
  let st1 := optBlockHyper nll (minH st.1) st
  let st2 := optBlockVrot nll (minV st1.1) st1
  optBlockJoint nll (minJ st2.1) st2

/-- Lines 144-216: _optimize_p0 with N iterations.  nll models
self._negative_lnlikelihood (always finite, line 249). -/
def optimize_p0 (nll : Theta4 → ℚ) (minH : Theta4 → MinRes (ℚ × ℚ × ℚ))
    (minV : Theta4 → MinRes ℚ) (minJ : Theta4 → MinRes Theta4)
    (p0 : Theta4) (N : ℕ) : Theta4 :=
  ((List.range N).foldl (fun st _ => optIter nll minH minV minJ st) (p0, nll p0)).1

/-! ## The p0 validation in get_vrot_GP (lines 119-121) -/

/-- Lines 120-121: the check applied to the jittered walker starting
positions: raise ValueError when np.any(np.isnan(p0)). -/
def p0_nan_guard (p0 : List Flt) : Except String Unit :=
  if p0.any Flt.isnan then Except.error "WARNING: NaNs in the p0 array."
  else Except.ok ()

/-! ## Claim-side definition for C1

This definition follows the WORDS of claim C1, not the source: the merged
cloud is said to pair the shifted coordinate of each stored sample (a, c)
with the intensity of that same stored sample, i.e. the intensity array in
the cloud is the flattening of the stored (sorted, filtered) spectra. -/

def deprojected_spectrum_claimC1 (E : Ens) (cosf : ℚ → ℚ) (vrot : ℚ) : List ℚ × List ℚ :=
  (applyIdx (argsortIdx (deproj_vpnts E cosf vrot)) (deproj_vpnts E cosf vrot) 0,
   applyIdx (argsortIdx (deproj_vpnts E cosf vrot)) ((storedSpectra E).flatten) 0)

/-! ## Concrete instances used by counterexamples and witnesses -/

/-- Ensemble whose input angles are out of order: theta = [1, 0], spectra
rows [[1, 2], [3, 4]], velax = [0, 1].  The constructor sorts the angles
to [0, 1] and the rows to [[3, 4], [1, 2]], but spectra_flat stays in the
original order [1, 2, 3, 4]. -/
def EnsC1 : Ens := ⟨[1, 0], [[1, 2], [3, 4]], [0, 1]⟩

/-- Ensemble already sorted by angle with all rows kept, used to witness
the amended claim C1. -/
def EnsC1w : Ens := ⟨[0, 1], [[1, 2], [3, 4]], [0, 1]⟩

/-- Ensemble with one empty row: its sum 0 is not greater than 0, so the
constructor removes it, while spectra_flat keeps all four samples. -/
def EnsC2w : Ens := ⟨[0, 1], [[0, 0], [1, 1]], [0, 1]⟩

/-- Ensemble used for the resampling counterexample: two channels, so the
claim prescribes round(1 * resample) bins. -/
def EnsC6 : Ens := ⟨[0], [[1, 1]], [0, 1]⟩

/-- Single-spectrum ensemble used for the Gaussian-center evaluation: one
angle, spectrum [1, 0] on the axis [0, 1]. -/
def EnsC5 : Ens := ⟨[0], [[1, 0]], [0, 1]⟩

/-- Ensemble with a row of strictly negative sum: the row sum -2 is
nonzero, yet line 34 removes the row because its sum is not positive. -/
def EnsC9 : Ens := ⟨[0, 1], [[-1, -1], [1, 1]], [0, 1]⟩

/-- Ensemble with unsorted input angles and all rows kept, used to witness
the amended claim C9. -/
def EnsC9w : Ens := ⟨[1, 0], [[1, 2], [3, 4]], [0, 1]⟩

/-- Objective oracle for the optimizer counterexample: the negative
log-likelihood is just the noise entry. -/
def nllEx (t : Theta4) : ℚ := t.noise

/-- Hyperparameter-block oracle: the minimizer reports success with the
in-bounds point (noise, lnsigma, lnrho) = (5, 0, 1), which is WORSE than
the current vector under nllEx. -/
def minHEx : Theta4 → MinRes (ℚ × ℚ × ℚ) := fun _ => ⟨true, (5, 0, 1)⟩

/-- The vrot block fails to converge. -/
def minVEx : Theta4 → MinRes ℚ := fun _ => ⟨false, 1⟩

/-- The joint block fails to converge. -/
def minJEx : Theta4 → MinRes Theta4 := fun _ => ⟨false, ⟨1, 1, 0, 1⟩⟩

/-- Starting vector for the optimizer counterexample. -/
def p0Ex : Theta4 := ⟨1, 1, 0, 1⟩

end eddy

namespace eddy

/-! ## Helper lemmas -/

/-- The prior can only ever take the two values none (minus infinity) and
some 0. -/
theorem lnprior_eq_none_or_zero (t : Theta4) (vref : ℚ) :
    lnprior t vref = none ∨ lnprior t vref = some 0 := by
  unfold lnprior
  split_ifs <;> simp

/-- Reading every position of a list back in order reproduces the list. -/
theorem map_getD_range {α : Type} (l : List α) (d : α) :
    (List.range l.length).map (fun i => l.getD i d) = l := by
  induction l with
  | nil => rfl
  | cons a t ih =>
    rw [List.length_cons, List.range_succ_eq_map, List.map_cons]
    simp only [List.getD_cons_zero, List.map_map]
    refine congrArg (a :: ·) ?_
    calc (List.range t.length).map ((fun i => (a :: t).getD i d) ∘ Nat.succ)
        = (List.range t.length).map (fun i => t.getD i d) := by
          refine List.map_congr_left ?_
          intro i _
          simp [List.getD_cons_succ]
      _ = t := ih

/-- The argsort index list is a permutation of the position range. -/
theorem argsortIdx_perm (l : List ℚ) : (argsortIdx l).Perm (List.range l.length) :=
  List.perm_insertionSort _ _

/-- Length of the argsort index list. -/
theorem argsortIdx_length (l : List ℚ) : (argsortIdx l).length = l.length := by
  rw [argsortIdx, List.length_insertionSort, List.length_range]

/-- Every argsort index is a valid position. -/
theorem argsortIdx_mem_lt (l : List ℚ) : ∀ i ∈ argsortIdx l, i < l.length := by
  intro i hi
  exact List.mem_range.1 ((argsortIdx_perm l).mem_iff.1 hi)

/-- Fancy indexing by an argsort permutation permutes any array of the same
length. -/
theorem applyIdx_argsort_perm {α : Type} (l : List ℚ) (m : List α) (d : α)
    (h : m.length = l.length) : (applyIdx (argsortIdx l) m d).Perm m := by
  have h2 : (List.range l.length).map (fun i => m.getD i d) = m := by
    rw [← h]; exact map_getD_range m d
  have hp := (argsortIdx_perm l).map (fun i => m.getD i d)
  rw [h2] at hp
  exact hp

/-- Applying argsort to the list it was computed from sorts the list. -/
theorem sorted_applyIdx_argsort (l : List ℚ) :
    List.Sorted (· ≤ ·) (applyIdx (argsortIdx l) l 0) := by
  haveI : IsTotal ℕ fun i j => l.getD i 0 ≤ l.getD j 0 := ⟨fun i j => le_total _ _⟩
  haveI : IsTrans ℕ fun i j => l.getD i 0 ≤ l.getD j 0 :=
    ⟨fun _ _ _ h1 h2 => le_trans h1 h2⟩
  have hs := List.sorted_insertionSort (fun i j => l.getD i 0 ≤ l.getD j 0)
    (List.range l.length)
  exact List.Pairwise.map _ (fun a b hab => hab) hs

/-- Zipping two fancy-indexed arrays equals fancy indexing the zip. -/
theorem applyIdx_zip (idxs : List ℕ) (a b : List ℚ) (da db : ℚ)
    (h : ∀ i ∈ idxs, i < a.length) (hab : a.length = b.length) :
    (applyIdx idxs a da).zip (applyIdx idxs b db) =
      idxs.map (fun i => (a.zip b).getD i (da, db)) := by
  unfold applyIdx
  rw [List.zip_map']
  refine List.map_congr_left ?_
  intro i hi
  have hia := h i hi
  have hib : i < b.length := hab ▸ hia
  have hz : i < (a.zip b).length := by rw [List.length_zip]; omega
  rw [List.getD_eq_getElem _ _ hz, List.getD_eq_getElem _ _ hia,
    List.getD_eq_getElem _ _ hib, List.getElem_zip]

/-- Position i of a map over a range. -/
theorem getD_map_range {α : Type} (f : ℕ → α) (n i : ℕ) (h : i < n) (d : α) :
    ((List.range n).map f).getD i d = f i := by
  rw [List.getD_eq_getElem _ _ (by simpa using h), List.getElem_map, List.getElem_range]

/-- Boolean-mask indexing selects a sublist. -/
theorem applyMask_sublist {α : Type} (mask : List Bool) (l : List α) :
    (applyMask mask l).Sublist l := by
  induction mask generalizing l with
  | nil => simp [applyMask]
  | cons b bs ih =>
    cases l with
    | nil => simp [applyMask]
    | cons a t =>
      cases b
      · have hstep : applyMask (false :: bs) (a :: t) = applyMask bs t := rfl
        rw [hstep]
        exact (ih t).cons a
      · have hstep : applyMask (true :: bs) (a :: t) = a :: applyMask bs t := rfl
        rw [hstep]
        exact (ih t).cons₂ a

/-- Length of boolean-mask indexing: the number of true entries. -/
theorem applyMask_length {α : Type} (mask : List Bool) (l : List α)
    (h : mask.length = l.length) :
    (applyMask mask l).length = mask.count true := by
  induction mask generalizing l with
  | nil => rfl
  | cons b bs ih =>
    cases l with
    | nil => exact absurd h (by simp)
    | cons a t =>
      have hlen : bs.length = t.length := by simpa using h
      cases b
      · have hstep : applyMask (false :: bs) (a :: t) = applyMask bs t := rfl
        rw [hstep, ih t hlen, List.count_cons]
        simp
      · have hstep : applyMask (true :: bs) (a :: t) = a :: applyMask bs t := rfl
        rw [hstep, List.length_cons, ih t hlen, List.count_cons]
        simp

/-- A mask of all true entries selects everything. -/
theorem applyMask_all_true {α : Type} (mask : List Bool) (l : List α)
    (h : mask.length = l.length) (ha : ∀ b ∈ mask, b = true) :
    applyMask mask l = l := by
  induction mask generalizing l with
  | nil => exact (List.length_eq_zero.1 h.symm).symm
  | cons b bs ih =>
    cases l with
    | nil => exact absurd h (by simp)
    | cons a t =>
      have hb : b = true := ha b (List.mem_cons_self b bs)
      subst hb
      have hstep : applyMask (true :: bs) (a :: t) = a :: applyMask bs t := rfl
      rw [hstep,
        ih t (by simpa using h) (fun c hc => ha c (List.mem_cons_of_mem _ hc))]

/-- Counting true in a mapped mask counts the rows passing the test. -/
theorem count_true_map {α : Type} (f : α → Bool) (l : List α) :
    (l.map f).count true = (l.filter f).length := by
  induction l with
  | nil => rfl
  | cons a t ih =>
    cases hf : f a <;>
      simp [List.count_cons, List.filter_cons, hf, ih]

/-- A mask containing a false entry has fewer true entries than entries. -/
theorem count_true_lt_of_mem_false (mask : List Bool) (h : false ∈ mask) :
    mask.count true < mask.length := by
  rcases Nat.lt_or_ge (mask.count true) mask.length with hlt | hge
  · exact hlt
  · have heq : mask.count true = mask.length :=
      le_antisymm (mask.count_le_length true) hge
    have hfa := List.count_eq_length.1 heq false h
    exact absurd hfa (by simp)

/-- Length of a flattened list of rows of constant length. -/
theorem flatten_length_const {α : Type} (L : List (List α)) (c : ℕ)
    (h : ∀ row ∈ L, row.length = c) :
    L.flatten.length = L.length * c := by
  induction L with
  | nil => simp
  | cons a t ih =>
    rw [List.flatten_cons, List.length_append, h a (List.mem_cons_self a t),
      ih (fun r hr => h r (List.mem_cons_of_mem _ hr)), List.length_cons,
      Nat.succ_mul, Nat.add_comm]

/-- Length of the shifted-coordinate cloud: kept angles times channels. -/
theorem deproj_vpnts_length (E : Ens) (cosf : ℚ → ℚ) (vrot : ℚ) :
    (deproj_vpnts E cosf vrot).length = (storedTheta E).length * E.velax.length := by
  unfold deproj_vpnts
  rw [flatten_length_const _ E.velax.length ?_, List.length_map]
  intro row hr
  rcases List.mem_map.1 hr with ⟨t, _, rfl⟩
  exact List.length_map _ _

/-- Length of the sorted angle array. -/
theorem sortedTheta_length (E : Ens) : (sortedTheta E).length = E.thetaIn.length := by
  rw [sortedTheta, applyIdx, List.length_map, argsortIdx_length]

/-- Length of the sorted spectra array. -/
theorem sortedSpectra_length (E : Ens) :
    (sortedSpectra E).length = E.thetaIn.length := by
  rw [sortedSpectra, applyIdx, List.length_map, argsortIdx_length]

/-- Length of the keep mask. -/
theorem keepMask_length (E : Ens) : (keepMask E).length = E.spectraIn.length :=
  List.length_map _ _

/-- Length of the stored angle array: the number of positive-sum rows. -/
theorem storedTheta_length (E : Ens) (hlen : E.thetaIn.length = E.spectraIn.length) :
    (storedTheta E).length = (keepMask E).count true := by
  rw [storedTheta]
  exact applyMask_length _ _ (by rw [keepMask_length, sortedTheta_length, hlen])

/-- Length of the stored spectra array: the number of positive-sum rows. -/
theorem storedSpectra_length (E : Ens) (hlen : E.thetaIn.length = E.spectraIn.length) :
    (storedSpectra E).length = (keepMask E).count true := by
  rw [storedSpectra]
  exact applyMask_length _ _ (by rw [keepMask_length, sortedSpectra_length, hlen])

/-! ## Claim C7 -/

/-- Claim C7: for every 4-vector theta and every positive vref, _lnprior
returns exactly 0.0 when all five constraints hold (relative vrot offset
at most 20 percent, positive vrot, positive noise, lnsigma strictly inside
(-15, 10), lnrho inside [0, 10]) and exactly minus infinity (modelled as
none) otherwise; no other value is ever returned. -/
theorem lnprior_zero_or_neg_inf (t : Theta4) (vref : ℚ) (_hv : 0 < vref) :
    lnprior t vref =
      if |t.vrot - vref| / vref ≤ 1/5 ∧ 0 < t.vrot ∧ 0 < t.noise ∧
         (-15 < t.lnsigma ∧ t.lnsigma < 10) ∧ (0 ≤ t.lnrho ∧ t.lnrho ≤ 10)
      then some 0 else none := by
  by_cases H : |t.vrot - vref| / vref ≤ 1/5 ∧ 0 < t.vrot ∧ 0 < t.noise ∧
      (-15 < t.lnsigma ∧ t.lnsigma < 10) ∧ (0 ≤ t.lnrho ∧ t.lnrho ≤ 10)
  · obtain ⟨h1, h2, h3, h4, h5⟩ := H
    rw [lnprior, if_neg (not_lt.2 h1), if_neg (not_le.2 h2), if_neg (not_le.2 h3),
      if_neg (not_not_intro h4), if_neg (not_not_intro h5),
      if_pos ⟨h1, h2, h3, h4, h5⟩]
  · rw [if_neg H, lnprior]
    split_ifs with a b c d e <;> try rfl
    exact absurd ⟨not_lt.1 a, not_le.1 b, not_le.1 c, d, e⟩ H

/-- Witness for C7: at theta = (1, 1, 0, 5) and vref = 1 all constraints
hold and the prior is exactly 0. -/
theorem lnprior_zero_or_neg_inf_witness :
    lnprior ⟨1, 1, 0, 5⟩ 1 = some 0 := by
  rw [lnprior_zero_or_neg_inf ⟨1, 1, 0, 5⟩ 1 (by norm_num)]
  norm_num

/-! ## Claim C10 -/

/-- Claim C10: _lnprobability equals the prior plus the likelihood (with
minus infinity absorbing), and when the prior is minus infinity the result
is minus infinity independently of the likelihood oracle, i.e. the
likelihood is never evaluated. -/
theorem lnprobability_prior_plus_likelihood (L : Theta4 → ℚ → Option ℚ)
    (t : Theta4) (vref r : ℚ) :
    lnprobability L t vref r = optAdd (lnprior t vref) (L t r) ∧
    (lnprior t vref = none →
      ∀ G : Theta4 → ℚ → Option ℚ, lnprobability G t vref r = none) := by
  constructor
  · rcases lnprior_eq_none_or_zero t vref with h | h
    · rw [lnprobability, h, if_pos rfl]; rfl
    · rw [lnprobability, h, if_neg (Option.some_ne_none 0)]
      cases hL : L t r
      · rfl
      · simp only [optAdd, zero_add]
  · intro h G
    rw [lnprobability, h, if_pos rfl]

/-- Witness for C10, at a theta rejected by the prior (vrot = -1 is not
positive): the sum law holds and the result is none for two different
likelihood oracles. -/
theorem lnprobability_prior_plus_likelihood_witness :
    lnprobability (fun _ _ => some 7) ⟨-1, 1, 0, 5⟩ 1 0 =
      optAdd (lnprior ⟨-1, 1, 0, 5⟩ 1) (some 7) ∧
    lnprobability (fun _ _ => some 3) ⟨-1, 1, 0, 5⟩ 1 0 = none := by
  refine ⟨(lnprobability_prior_plus_likelihood (fun _ _ => some 7) ⟨-1, 1, 0, 5⟩ 1 0).1, ?_⟩
  exact (lnprobability_prior_plus_likelihood (fun _ _ => some 7) ⟨-1, 1, 0, 5⟩ 1 0).2
    (by norm_num [lnprior]) (fun _ _ => some 3)

/-! ## Claim C3 -/

/-- Claim C3 is refuted on the code: _optimize_p0 copies the parameter
vector by reference (p0_temp = p0), so the slice assignment of the
hyperparameter block mutates p0 in place even when the candidate is then
rejected for not improving the likelihood.  Here the hyperparameter
minimization converges to an in-bounds point that is strictly worse, the
other two blocks do not converge, and the routine returns a vector whose
negative log-likelihood is 5, strictly greater than the value 1 of its
input, contradicting both the claim and the comment at lines 169-171. -/
theorem optimize_p0_rejected_step_mutates :
    nllEx (optimize_p0 nllEx minHEx minVEx minJEx p0Ex 1) = 5 ∧
    nllEx p0Ex = 1 ∧
    ¬ nllEx (optimize_p0 nllEx minHEx minVEx minJEx p0Ex 1) ≤ nllEx p0Ex := by
  have h : optimize_p0 nllEx minHEx minVEx minJEx p0Ex 1 = ⟨1, 5, 0, 1⟩ := by
    norm_num [optimize_p0, List.range_succ, optIter, optBlockHyper, optBlockVrot,
      optBlockJoint, minHEx, minVEx, minJEx, nllEx, p0Ex]
  rw [h]
  norm_num [nllEx, p0Ex]

/-! ## Claim C5 -/

/-- Claim C5 is refuted on the code: when the Gaussian fit succeeds with
the finite center x0 = -2, _get_gaussian_center returns abs(x0) = 2, not
the fitted center itself; the fallback to the velocity of the maximum
sample on a non-finite center behaves as claimed.  On the axis [0, 1] with
spectrum [1, 0] the code therefore turns the center -2 into 2. -/
theorem gaussian_center_returns_abs :
    get_gaussian_center [0, 1] [1, 0] (Flt.fin (-2)) = 2 ∧
    peak_velocities_gaussian EnsC5 [Flt.fin (-2)] = [2] ∧
    get_gaussian_center [0, 1] [1, 0] Flt.nan = 0 ∧
    ¬ ((2 : ℚ) = -2) := by
  have hr1 : List.range 1 = [0] := rfl
  refine ⟨by norm_num [get_gaussian_center], ?_, ?_, by norm_num⟩
  · norm_num [peak_velocities_gaussian, get_gaussian_center, storedSpectra,
      applyMask, keepMask, sortedSpectra, applyIdx, argsortIdx, EnsC5, hr1,
      List.insertionSort, List.orderedInsert, List.sum_cons,
      List.filterMap_cons, List.filterMap_nil, List.zipWith]
  · norm_num [get_gaussian_center, argmaxIdx, List.findIdx_cons, max_def]

/-! ## Claim C8 -/

/-- Counterexample for claim C8: a jittered starting position containing
plus infinity is NOT finite, yet the check at lines 120-121 (which only
tests np.isnan) passes and get_vrot_GP proceeds to sampling. -/
theorem p0_guard_passes_infinity :
    p0_nan_guard [Flt.inf, Flt.fin 1, Flt.fin 1, Flt.fin 1] = Except.ok () ∧
    Flt.isfinite Flt.inf = false :=
  ⟨rfl, rfl⟩

/-- Amended claim C8: get_vrot_GP raises the ValueError exactly when some
component of the jittered starting positions is NaN; components that are
infinite but not NaN do not trigger the error and sampling proceeds. -/
theorem p0_guard_nan_only (p0 : List Flt) :
    (p0_nan_guard p0 = Except.error "WARNING: NaNs in the p0 array." ↔
      ∃ z ∈ p0, z.isnan = true) ∧
    (p0_nan_guard p0 = Except.ok () ↔ ∀ z ∈ p0, z.isnan = false) := by
  unfold p0_nan_guard
  by_cases h : p0.any Flt.isnan
  · rw [if_pos h]
    rw [List.any_eq_true] at h
    constructor
    · exact ⟨fun _ => h, fun _ => rfl⟩
    · constructor
      · intro hk
        exact absurd hk (by simp)
      · intro hall
        obtain ⟨z, hz, hnan⟩ := h
        exact absurd hnan (by simp [hall z hz])
  · rw [if_neg h]
    rw [List.any_eq_true] at h
    push_neg at h
    constructor
    · constructor
      · intro hk
        exact absurd hk (by simp)
      · intro ⟨z, hz, hnan⟩
        exact absurd hnan (h z hz)
    · exact ⟨fun _ z hz => by simpa using h z hz, fun _ => rfl⟩

end eddy

namespace eddy

/-! ## Claim C9 -/

/-- Counterexample for claim C9: on the input with rows [[-1, -1], [1, 1]]
the first row has the nonzero sum -2, yet the constructor drops it because
line 34 keeps only rows with strictly positive sum, so only 1 row is
stored while 2 rows of the original input have nonzero sum. -/
theorem store_counts_nonzero_sum_fails :
    (storedTheta EnsC9).length = 1 ∧
    (EnsC9.spectraIn.filter (fun row => decide (row.sum ≠ 0))).length = 2 ∧
    (1 : ℕ) ≠ 2 := by
  refine ⟨?_, ?_, by norm_num⟩
  · norm_num [storedTheta, applyMask, keepMask, sortedTheta, applyIdx, argsortIdx,
      EnsC9, List.insertionSort, List.orderedInsert, List.sum_cons,
      List.filterMap_cons, List.filterMap_nil]
  · norm_num [EnsC9, List.filter, List.sum_cons]

/-- Amended claim C9: for every constructor input with matching array
lengths and default options, the stored angle array is non-decreasing and
the numbers of stored angles and stored spectra both equal the number of
rows of the original input whose intensity sum is strictly POSITIVE (the
code keeps sums greater than 0, not sums different from 0). -/
theorem store_sorted_and_counts (E : Ens)
    (hlen : E.thetaIn.length = E.spectraIn.length) :
    List.Sorted (· ≤ ·) (storedTheta E) ∧
    (storedTheta E).length = (storedSpectra E).length ∧
    (storedTheta E).length =
      (E.spectraIn.filter (fun row => decide (0 < row.sum))).length := by
  refine ⟨?_, ?_, ?_⟩
  · exact (sorted_applyIdx_argsort E.thetaIn).sublist
      (applyMask_sublist (keepMask E) (sortedTheta E))
  · rw [storedTheta_length E hlen, storedSpectra_length E hlen]
  · rw [storedTheta_length E hlen, keepMask, count_true_map]

/-- Witness for the amended claim C9 on a concrete unsorted input. -/
theorem store_sorted_and_counts_witness :
    List.Sorted (· ≤ ·) (storedTheta EnsC9w) ∧
    (storedTheta EnsC9w).length = (storedSpectra EnsC9w).length ∧
    (storedTheta EnsC9w).length =
      (EnsC9w.spectraIn.filter (fun row => decide (0 < row.sum))).length :=
  store_sorted_and_counts EnsC9w rfl

end eddy

namespace eddy

/-! ## Claim C2 -/

/-- Claim C2: if the constructor input contains a row of non-positive sum
(which remove_empty drops), then every later call of deprojected_spectrum
or deprojected_spectrum_maximum raises the size-mismatch ValueError of
_order_spectra, for every cosine oracle, every rotation velocity, every
resample setting and every peak-velocity oracle: the cached spectra_flat
still holds all original rows while the shifted coordinates only cover the
kept angles. -/
theorem deprojection_raises_after_removal (E : Ens)
    (hvel : 1 ≤ E.velax.length)
    (hlen : E.thetaIn.length = E.spectraIn.length)
    (hrow : ∀ row ∈ E.spectraIn, row.length = E.velax.length)
    (hbad : ∃ row ∈ E.spectraIn, row.sum ≤ 0) :
    (∀ cosf vrot r, deprojected_spectrum E cosf vrot r = Except.error sizeErrMsg) ∧
    (∀ vmax r, vmax.length = (storedSpectra E).length →
        deprojected_spectrum_maximum E vmax r = Except.error sizeErrMsg) := by
  have hfalse : false ∈ keepMask E := by
    obtain ⟨row, hm, hs⟩ := hbad
    have hdec : decide (0 < row.sum) = false := decide_eq_false (not_lt.2 hs)
    have hmem : decide (0 < row.sum) ∈ List.map (fun row => decide (0 < row.sum)) E.spectraIn :=
      List.mem_map_of_mem _ hm
    rw [hdec] at hmem
    exact hmem
  have hcount : (keepMask E).count true < E.spectraIn.length := by
    have hc := count_true_lt_of_mem_false (keepMask E) hfalse
    rwa [keepMask_length] at hc
  have hflat : (spectra_flat E).length = E.spectraIn.length * E.velax.length :=
    flatten_length_const _ _ hrow
  have hmul : (keepMask E).count true * E.velax.length <
      E.spectraIn.length * E.velax.length :=
    mul_lt_mul_of_pos_right hcount (Nat.lt_of_lt_of_le Nat.zero_lt_one hvel)
  constructor
  · intro cosf vrot r
    have hcond : (spectra_flat E).length ≠ (deproj_vpnts E cosf vrot).length := by
      rw [deproj_vpnts_length, storedTheta_length E hlen, hflat]
      exact ne_of_gt hmul
    have hord : order_spectra E (deproj_vpnts E cosf vrot) =
        Except.error sizeErrMsg := by
      rw [order_spectra, if_pos hcond]
    rw [deprojected_spectrum, hord]
    rfl
  · intro vmax r hv
    have hvp : (((vmax.map (fun m => m - npMedian vmax)).map
        (fun dv => E.velax.map (fun v => v - dv))).flatten).length =
        vmax.length * E.velax.length := by
      rw [flatten_length_const _ E.velax.length ?_, List.length_map, List.length_map]
      intro row hr
      rcases List.mem_map.1 hr with ⟨dv, _, rfl⟩
      exact List.length_map _ _
    have hcond : (spectra_flat E).length ≠
        (((vmax.map (fun m => m - npMedian vmax)).map
          (fun dv => E.velax.map (fun v => v - dv))).flatten).length := by
      rw [hvp, hv, storedSpectra_length E hlen, hflat]
      exact ne_of_gt hmul
    have hord : order_spectra E
        (((vmax.map (fun m => m - npMedian vmax)).map
          (fun dv => E.velax.map (fun v => v - dv))).flatten) =
        Except.error sizeErrMsg := by
      rw [order_spectra, if_pos hcond]
    rw [deprojected_spectrum_maximum, hord]
    rfl

/-- Witness for C2 on the concrete ensemble whose first row sums to 0:
both deprojection entry points raise the size-mismatch error. -/
theorem deprojection_raises_after_removal_witness :
    deprojected_spectrum EnsC2w id 1 0 = Except.error sizeErrMsg ∧
    deprojected_spectrum_maximum EnsC2w [5] 0 = Except.error sizeErrMsg := by
  have h := deprojection_raises_after_removal EnsC2w (by norm_num [EnsC2w])
    rfl (by decide)
    ⟨[0, 0], by simp [EnsC2w], by norm_num [List.sum_cons]⟩
  refine ⟨h.1 id 1 0, h.2 [5] 0 ?_⟩
  norm_num [storedSpectra, applyMask, keepMask, sortedSpectra, applyIdx, argsortIdx,
    EnsC2w, List.insertionSort, List.orderedInsert, List.sum_cons,
    List.filterMap_cons, List.filterMap_nil]

end eddy

namespace eddy

/-! ## Claim C1 -/

/-- Counterexample for claim C1: on the ensemble with input angles [1, 0]
(so that sorting permutes the rows), deprojected_spectrum pairs the
shifted coordinates of the STORED angles with the flattened ORIGINAL input
intensities, giving intensity order [3, 4, 1, 2]; the pairing described by
the claim (each stored sample keeps its own intensity) would instead give
[1, 2, 3, 4].  The cosine oracle is instantiated with the identity
function and vrot = 10. -/
theorem deprojected_spectrum_stored_pairing_fails :
    deprojected_spectrum EnsC1 id 10 0 =
      Except.ok (RSOut.raw [-10, -9, 0, 1] [3, 4, 1, 2]) ∧
    deprojected_spectrum_claimC1 EnsC1 id 10 = ([-10, -9, 0, 1], [1, 2, 3, 4]) ∧
    ¬ (([3, 4, 1, 2] : List ℚ) = [1, 2, 3, 4]) := by
  have hr2 : List.range 2 = [0, 1] := rfl
  have hr4 : List.range 4 = [0, 1, 2, 3] := rfl
  refine ⟨?_, ?_, by norm_num⟩ <;>
    norm_num [deprojected_spectrum, deprojected_spectrum_claimC1, order_spectra,
      deproj_vpnts, spectra_flat, storedTheta, storedSpectra, sortedTheta,
      sortedSpectra, keepMask, applyMask, applyIdx, argsortIdx, EnsC1,
      resample_spectra, hr2, hr4, List.insertionSort, List.orderedInsert,
      List.sum_cons, List.filterMap_cons, List.filterMap_nil, Except.map,
      List.flatten_cons, List.flatten_nil]

/-- Amended claim C1: when no row is removed (all rows have positive sum)
and the input arrays are consistent, deprojected_spectrum(vrot,
resample=False) succeeds and returns the cloud whose points are exactly
the pairs (velax c - vrot * cos (storedTheta a), spectraIn a c) with the
intensity drawn from the ORIGINAL input row a (original order), merged and
sorted ascending by coordinate; the pairing claimed for the stored spectra
holds only when the sort leaves the row order unchanged. -/
theorem deprojected_spectrum_pairs_original_intensities (E : Ens)
    (cosf : ℚ → ℚ) (vrot : ℚ)
    (hlen : E.thetaIn.length = E.spectraIn.length)
    (hrow : ∀ row ∈ E.spectraIn, row.length = E.velax.length)
    (hkeep : ∀ row ∈ E.spectraIn, 0 < row.sum) :
    ∃ v s, deprojected_spectrum E cosf vrot 0 = Except.ok (RSOut.raw v s) ∧
      (v.zip s).Perm ((deproj_vpnts E cosf vrot).zip (spectra_flat E)) ∧
      List.Sorted (· ≤ ·) v := by
  have hmask : ∀ b ∈ keepMask E, b = true := by
    intro b hb
    rcases List.mem_map.1 hb with ⟨row, hm, rfl⟩
    exact decide_eq_true (hkeep row hm)
  have hmlen : (keepMask E).length = (sortedTheta E).length := by
    rw [keepMask_length, sortedTheta_length, hlen]
  have hst : storedTheta E = sortedTheta E := applyMask_all_true _ _ hmlen hmask
  have hstlen : (storedTheta E).length = E.thetaIn.length := by
    rw [hst, sortedTheta_length]
  have hvplen : (deproj_vpnts E cosf vrot).length =
      E.spectraIn.length * E.velax.length := by
    rw [deproj_vpnts_length, hstlen, hlen]
  have hflat : (spectra_flat E).length = E.spectraIn.length * E.velax.length :=
    flatten_length_const _ _ hrow
  have heq : (spectra_flat E).length = (deproj_vpnts E cosf vrot).length := by
    rw [hflat, hvplen]
  refine ⟨applyIdx (argsortIdx (deproj_vpnts E cosf vrot)) (deproj_vpnts E cosf vrot) 0,
    applyIdx (argsortIdx (deproj_vpnts E cosf vrot)) (spectra_flat E) 0, ?_, ?_, ?_⟩
  · rw [deprojected_spectrum, order_spectra, if_neg (fun hne => hne heq)]
    show Except.ok (resample_spectra E _ _ 0) = _
    rw [resample_spectra, if_pos rfl]
  · have hzip := applyIdx_zip (argsortIdx (deproj_vpnts E cosf vrot))
      (deproj_vpnts E cosf vrot) (spectra_flat E) 0 0
      (argsortIdx_mem_lt (deproj_vpnts E cosf vrot)) heq.symm
    rw [hzip]
    have hlz : ((deproj_vpnts E cosf vrot).zip (spectra_flat E)).length =
        (deproj_vpnts E cosf vrot).length := by
      rw [List.length_zip, ← heq, Nat.min_self]
    have hmr : (List.range ((deproj_vpnts E cosf vrot).zip (spectra_flat E)).length).map
        (fun i => ((deproj_vpnts E cosf vrot).zip (spectra_flat E)).getD i (0, 0)) =
        (deproj_vpnts E cosf vrot).zip (spectra_flat E) := map_getD_range _ _
    rw [hlz] at hmr
    have hperm := (argsortIdx_perm (deproj_vpnts E cosf vrot)).map
      (fun i => ((deproj_vpnts E cosf vrot).zip (spectra_flat E)).getD i (0, 0))
    rw [hmr] at hperm
    exact hperm
  · exact sorted_applyIdx_argsort (deproj_vpnts E cosf vrot)

/-- Witness for the amended claim C1 on a concrete sorted all-kept input. -/
theorem deprojected_spectrum_pairs_original_intensities_witness :
    ∃ v s, deprojected_spectrum EnsC1w id 1 0 = Except.ok (RSOut.raw v s) ∧
      (v.zip s).Perm ((deproj_vpnts EnsC1w id 1).zip (spectra_flat EnsC1w)) ∧
      List.Sorted (· ≤ ·) v :=
  deprojected_spectrum_pairs_original_intensities EnsC1w id 1 rfl (by decide)
    (by
      intro row hr
      rcases List.mem_cons.1 hr with h | h
      · subst h; norm_num [List.sum_cons]
      · rcases List.mem_cons.1 h with h2 | h2
        · subst h2; norm_num [List.sum_cons]
        · exact absurd h2 (List.not_mem_nil row))

end eddy

namespace eddy

/-! ## Claim C6 -/

/-- Counterexample for claim C6: with two channels and resample factor
3/2 the claim prescribes round((2 - 1) * 3/2) = 2 bins, but the code
computes int((2 - 1) * 3/2) = 1 bin: the merged cloud [0, 1] with
intensities [10, 20] lands in a single bin of mean 15 centred at 1/2. -/
theorem resample_bins_not_rounded :
    resample_spectra EnsC6 [0, 1] [10, 20] (3/2) = RSOut.binned [1/2] [some 15] ∧
    round (((EnsC6.velax.length : ℚ) - 1) * (3/2)) = 2 ∧
    ((1 : ℕ) ≠ 2) := by
  have hb : nbins EnsC6 (3/2) = 1 := by norm_num [nbins, ratTrunc, EnsC6]
  have hr1 : List.range 1 = [0] := rfl
  refine ⟨?_, ?_, by norm_num⟩
  · rw [resample_spectra, if_neg (by norm_num), hb]
    norm_num [binned_statistic_mean, binEdge, binMem, meanQ, velaxLo, velaxHi,
      channel, EnsC6, hr1, List.filter, List.zip_cons_cons, List.sum_cons]
    intro h
    simp at h
  · norm_num [EnsC6, round_eq]

/-- Amended claim C6: for every merged cloud and every truthy (nonzero)
resample factor r, the code bins the cloud into int((N_channels - 1) * r)
bins (TRUNCATION toward zero, not rounding) of equal width spanning the
half-channel padded range, takes the mean intensity per bin with NaN
(none) on empty bins, and returns the bin midpoints as the new axis. -/
theorem resample_spectra_policy_trunc (E : Ens) (vpnts spnts : List ℚ) (r : ℚ)
    (hr : r ≠ 0) :
    ∃ ax ys, resample_spectra E vpnts spnts r = RSOut.binned ax ys ∧
      ax.length = nbins E r ∧ ys.length = nbins E r ∧
      (∀ i, i < nbins E r →
        ax.getD i 0 = velaxLo E +
          (velaxHi E - velaxLo E) / (nbins E r) * ((i : ℚ) + 1/2)) ∧
      (∀ i, i < nbins E r →
        ys.getD i none = meanQ (((vpnts.zip spnts).filter (fun q =>
          decide (velaxLo E + (velaxHi E - velaxLo E) / (nbins E r) * (i : ℚ) ≤ q.1) &&
          (if i + 1 = nbins E r then decide (q.1 ≤ velaxHi E)
           else decide (q.1 < velaxLo E +
             (velaxHi E - velaxLo E) / (nbins E r) * ((i : ℚ) + 1))))).map
          Prod.snd)) := by
  refine ⟨(List.range (nbins E r)).map (fun i =>
      (binEdge (velaxLo E) (velaxHi E) (nbins E r) i +
       binEdge (velaxLo E) (velaxHi E) (nbins E r) (i + 1)) / 2),
    binned_statistic_mean vpnts spnts (nbins E r) (velaxLo E) (velaxHi E),
    ?_, ?_, ?_, ?_, ?_⟩
  · rw [resample_spectra, if_neg hr]
  · rw [List.length_map, List.length_range]
  · rw [binned_statistic_mean, List.length_map, List.length_range]
  · intro i hi2
    rw [getD_map_range _ _ _ hi2]
    have hn : ((nbins E r : ℕ) : ℚ) ≠ 0 :=
      Nat.cast_ne_zero.2 (Nat.lt_of_le_of_lt (Nat.zero_le i) hi2).ne'
    rw [binEdge, binEdge]
    push_cast
    field_simp
    ring
  · intro i hi2
    rw [binned_statistic_mean, getD_map_range _ _ _ hi2]
    have hn : ((nbins E r : ℕ) : ℚ) ≠ 0 :=
      Nat.cast_ne_zero.2 (Nat.lt_of_le_of_lt (Nat.zero_le i) hi2).ne'
    have he : ∀ k : ℕ, binEdge (velaxLo E) (velaxHi E) (nbins E r) k =
        velaxLo E + (velaxHi E - velaxLo E) / (nbins E r) * (k : ℚ) := by
      intro k
      rw [binEdge]
      ring
    have hnn : binEdge (velaxLo E) (velaxHi E) (nbins E r) (nbins E r) = velaxHi E := by
      rw [binEdge, mul_div_assoc, div_self hn, mul_one]
      ring
    congr 2
    refine List.filter_congr ?_
    intro q _
    rw [binMem, he i, hnn]
    by_cases hlast : i + 1 = nbins E r
    · rw [if_pos hlast, if_pos hlast]
    · rw [if_neg hlast, if_neg hlast, he (i + 1)]
      push_cast
      ring_nf

/-- Witness for the amended claim C6 at resample factor 1 on the
two-channel ensemble. -/
theorem resample_spectra_policy_trunc_witness :
    ∃ ax ys, resample_spectra EnsC6 [0, 1] [10, 20] 1 = RSOut.binned ax ys ∧
      ax.length = nbins EnsC6 1 ∧ ys.length = nbins EnsC6 1 ∧
      (∀ i, i < nbins EnsC6 1 →
        ax.getD i 0 = velaxLo EnsC6 +
          (velaxHi EnsC6 - velaxLo EnsC6) / (nbins EnsC6 1) * ((i : ℚ) + 1/2)) ∧
      (∀ i, i < nbins EnsC6 1 →
        ys.getD i none = meanQ ((([(0 : ℚ), 1].zip [(10 : ℚ), 20]).filter (fun q =>
          decide (velaxLo EnsC6 +
            (velaxHi EnsC6 - velaxLo EnsC6) / (nbins EnsC6 1) * (i : ℚ) ≤ q.1) &&
          (if i + 1 = nbins EnsC6 1 then decide (q.1 ≤ velaxHi EnsC6)
           else decide (q.1 < velaxLo EnsC6 +
             (velaxHi EnsC6 - velaxLo EnsC6) / (nbins EnsC6 1) * ((i : ℚ) + 1))))).map
          Prod.snd)) :=
  resample_spectra_policy_trunc EnsC6 [0, 1] [10, 20] 1 (by norm_num)

end eddy
